import Mathlib

/-!
# Verification of the whis transcription core

Shallow embedding of the parts of the `whis` voice-to-text engine that the
claims concern, together with proofs settling each claim.

Rust strings are embedded as lists of characters (`Str`); Rust `f32` sample
values and fractional seconds are embedded as exact rationals; fallible Rust
functions return `Except String`.  External I/O (WebSocket events, HTTP chat
calls, the native inference engine) is passed in explicitly as data or as
oracle functions, so every definition stays executable.
-/

namespace Whis

/-! ## String primitives

Embeddings of the Rust `str` operations used by the transcription merger
(`str::trim`, `str::split_whitespace`, `[&str]::join(" ")`,
`str::starts_with(' ')`, `str::ends_with(' ')`, `str::eq_ignore_ascii_case`).
A Rust string is a sequence of characters. -/

/-- A Rust string, embedded as its list of characters. -/
abbrev Str := List Char

/-- Drop the leading whitespace characters of a string
(the head end of `str::trim`). -/
def dropWsHead : Str → Str
  | [] => []
  | c :: cs => if c.isWhitespace then dropWsHead cs else c :: cs

/-- `str::trim`: remove leading and trailing whitespace. -/
def trimStr (s : Str) : Str :=
  dropWsHead ((dropWsHead s.reverse).reverse)

/-- Helper for `splitWs`: accumulate the current word (reversed). -/
def splitWsAux : Str → Str → List Str
  | [], acc => if acc.isEmpty then [] else [acc.reverse]
  | c :: cs, acc =>
    if c.isWhitespace then
      if acc.isEmpty then splitWsAux cs [] else acc.reverse :: splitWsAux cs []
    else splitWsAux cs (c :: acc)

/-- `str::split_whitespace`: the whitespace-separated words of a string. -/
def splitWs (s : Str) : List Str := splitWsAux s []

/-- `[&str]::join(" ")`: join words with a single space. -/
def joinSpace : List Str → Str
  | [] => []
  | [w] => w
  | w :: ws => w ++ [' '] ++ joinSpace ws

/-- `str::starts_with(' ')`. -/
def startsWithSpace : Str → Bool
  | [] => false
  | c :: _ => c == ' '

/-- `str::ends_with(' ')`. -/
def endsWithSpace (s : Str) : Bool := s.getLast? == some ' '

/-- ASCII lowercasing of one character (`u8::to_ascii_lowercase`). -/
def asciiLower (c : Char) : Char :=
  if 'A' ≤ c ∧ c ≤ 'Z' then Char.ofNat (c.toNat + 32) else c

/-- `str::eq_ignore_ascii_case`. -/
def eqIgnoreAsciiCase (a b : Str) : Bool :=
  a.map asciiLower == b.map asciiLower

/-! ## Transcription merger

Embedding of `whis-core/src/transcription/transcribe.rs`. -/

/-- `MAX_OVERLAP_WORDS` in transcribe.rs: maximum words searched for overlap. -/
def MAX_OVERLAP_WORDS : Nat := 15

/-- `ChunkTranscription` in transcribe.rs: result of transcribing one chunk. -/
structure ChunkTranscription where
  index : Nat
  text : Str
  has_leading_overlap : Bool

/-- Whether the last `l` words of `ew` equal the first `l` words of `nw`,
case-insensitively (the zipped `eq_ignore_ascii_case` test inside the
`remove_overlap` loop). -/
def overlapMatchesAt (ew nw : List Str) (l : Nat) : Bool :=
  ((ew.drop (ew.length - l)).zip (nw.take l)).all fun p => eqIgnoreAsciiCase p.1 p.2

/-- The `for overlap_len in 1..=k` loop of `remove_overlap`: iterate upward and
keep the last (hence largest) matching overlap length, `0` when none match. -/
def best_overlap (ew nw : List Str) (k : Nat) : Nat :=
  (List.range' 1 k).foldl (fun best l => if overlapMatchesAt ew nw l then l else best) 0

/-- `remove_overlap` in transcribe.rs: drop from the front of `new_text` the
longest word-overlap with the tail of `existing`. -/
def remove_overlap (existing new_text : Str) : Str :=
  let existing_words := splitWs existing
  let new_words := splitWs new_text
  if existing_words.isEmpty ∨ new_words.isEmpty then new_text
  else
    let search_end := min existing_words.length MAX_OVERLAP_WORDS
    let search_new := min new_words.length MAX_OVERLAP_WORDS
    let best := best_overlap existing_words new_words (min search_end search_new)
    if best > 0 then joinSpace (new_words.drop best) else new_text

/-- One iteration of the `merge_transcriptions` loop for a chunk with index
`> 0`, updating the accumulated string `merged`. -/
def mergeStep (merged : Str) (t : ChunkTranscription) : Str :=
  let text := trimStr t.text
  if t.has_leading_overlap then
    let cleaned := remove_overlap merged text
    if (trimStr cleaned).isEmpty then merged
    else
      (if ¬ endsWithSpace merged ∧ ¬ cleaned.isEmpty ∧ ¬ startsWithSpace cleaned then
        merged ++ [' '] else merged) ++ cleaned
  else
    (if ¬ endsWithSpace merged ∧ ¬ text.isEmpty ∧ ¬ startsWithSpace text then
      merged ++ [' '] else merged) ++ text

/-- `merge_transcriptions` in transcribe.rs.  Note the two early returns: the
empty sequence gives `""` and a single chunk returns its text as-is; otherwise
the first chunk is appended trimmed and later chunks go through `mergeStep`. -/
def merge_transcriptions : List ChunkTranscription → Str
  | [] => []
  | [t] => t.text
  | t :: rest => rest.foldl mergeStep (trimStr t.text)

/-! ## Dynamic drain timeouts

Embedding of the phase-2 timeout computations of
`deepgram_realtime.rs::collect_transcripts` and
`openai_realtime.rs::collect_transcripts`.  Fractional seconds are embedded as
exact rationals (the Rust code computes them in `f64`). -/

/-- Rust `f64::clamp(x, lo, hi)`: `lo` if `x < lo`, `hi` if `x > hi`, else `x`. -/
def rustClamp (x lo hi : ℚ) : ℚ :=
  if x < lo then lo else if x > hi then hi else x

/-- Deepgram reader, phase 2: `(total_samples / 16000 / 5).clamp(5.0, 60.0)`
seconds, used as-is via `Duration::from_secs_f64`. -/
def deepgramDrainSecs (total_samples : Nat) : ℚ :=
  rustClamp ((total_samples : ℚ) / 16000 / 5) 5 60

/-- OpenAI reader, phase 2: `(total_samples / 16000 / 5).clamp(30.0, 120.0) as
u64` — the clamped value is truncated to whole seconds by the `as u64` cast. -/
def openaiDrainSecs (total_samples : Nat) : Nat :=
  (⌊rustClamp ((total_samples : ℚ) / 16000 / 5) 30 120⌋).toNat

/-- The drain-timeout formula as the spec words it:
`clamp(audio_secs / 5, min, max)` with `audio_secs = total_samples / 16000`. -/
def specDrainFormula (total_samples : Nat) (lo hi : ℚ) : ℚ :=
  max lo (min ((total_samples : ℚ) / 16000 / 5) hi)

/-! ## Streaming readers (two-phase finalize)

Embedding of the reader state machines of both WebSocket backends.  A session
is described by the parsed events the reader receives: the phase-1 events (all
of which arrive before the sender's done signal) and the phase-2 events, each
tagged with its arrival time in seconds after the done signal; only events
arriving before the drain deadline are in the phase-2 list.  The reader's
result is paired with its finish time (seconds after the done signal), and the
outer `transcribe_stream_impl` wrapper compares that finish time with its own
fixed 30-second wait on the read task. -/

/-- `str::trim` on the rationals-free side: transcripts in the streaming
readers are plain Lean strings; trim them through `trimStr`. -/
def strTrim (s : String) : String := ⟨trimStr s.data⟩

/-- A parsed `DeepgramEvent` (deepgram_realtime.rs), with
`channel.alternatives.first().transcript` flattened into one optional field. -/
structure DgEvent where
  event_type : String
  is_final : Bool
  firstAltTranscript : Option String
  description : Option String
  from_finalize : Bool

/-- A WebSocket message as seen by the Deepgram reader.  `streamEnd` is the
stream returning `None`. -/
inductive DgMsg
  | text (e : DgEvent)
  | close
  | ping
  | binary
  | wsError (e : String)
  | streamEnd

/-- `process_message` in deepgram_realtime.rs: returns `some transcript` to
short-circuit, `none` to continue, or an error; also the updated accumulated
transcript. -/
def dg_process_message (msg : DgMsg) (final_transcript : String) :
    Except String (Option String × String) :=
  match msg with
  | .text e =>
    if e.event_type = "Results" then
      let acc :=
        match e.firstAltTranscript with
        | some t => if e.is_final ∧ t ≠ "" then final_transcript ++ t ++ " " else final_transcript
        | none => final_transcript
      .ok (none, acc)
    else if e.event_type = "error" then
      match e.description with
      | some desc => .error ("Deepgram error: " ++ desc)
      | none => .error "Deepgram error (no description)"
    else .ok (none, final_transcript)
  | .close => .ok (some (strTrim final_transcript), final_transcript)
  | .ping => .ok (none, final_transcript)
  | .binary => .ok (none, final_transcript)
  | .wsError e => .error ("WebSocket error: " ++ e)
  | .streamEnd => .ok (some (strTrim final_transcript), final_transcript)

/-- Phase 1 of the Deepgram reader: process messages until the done signal;
`some r` means the reader already returned `r`. -/
def dg_phase1 (final_transcript : String) : List DgMsg → Except String (Option String × String)
  | [] => .ok (none, final_transcript)
  | m :: ms =>
    match dg_process_message m final_transcript with
    | .error e => .error e
    | .ok (some r, _) => .ok (some r, final_transcript)
    | .ok (none, acc) => dg_phase1 acc ms

/-- Phase 2 of the Deepgram reader: process timed messages until one
short-circuits; if none does, the drain deadline fires and the trimmed
accumulation is returned at the deadline. -/
def dg_phase2 (final_transcript : String) (deadline : ℚ) :
    List (ℚ × DgMsg) → Except String String × ℚ
  | [] => (.ok (strTrim final_transcript), deadline)
  | (t, m) :: ms =>
    match dg_process_message m final_transcript with
    | .error e => (.error e, t)
    | .ok (some r, _) => (.ok r, t)
    | .ok (none, acc) => dg_phase2 acc deadline ms

/-- `collect_transcripts` in deepgram_realtime.rs, as a function of the
session's event lists and the `total_samples` value sent on the done channel.
The second component is the reader's finish time in seconds after the done
signal (phase-1 returns are at time `0`). -/
def dg_collect_transcripts (phase1 : List DgMsg) (total_samples : Nat)
    (phase2 : List (ℚ × DgMsg)) : Except String String × ℚ :=
  match dg_phase1 "" phase1 with
  | .error e => (.error e, 0)
  | .ok (some r, _) => (.ok r, 0)
  | .ok (none, acc) => dg_phase2 acc (deepgramDrainSecs total_samples) phase2

/-- A parsed OpenAI Realtime server event (openai_realtime.rs). -/
structure OaEvent where
  event_type : String
  transcript : Option String
  errorMessage : Option String

/-- A WebSocket message as seen by the OpenAI reader. -/
inductive OaMsg
  | text (e : OaEvent)
  | close
  | ping
  | pong
  | binary
  | wsError (e : String)
  | streamEnd

/-- Phase 1 of the OpenAI reader (`collect_transcripts` first loop): monitor
for errors and capture an early transcript; `early` is the
`early_transcript` variable. -/
def oa_phase1 (early : Option String) : List OaMsg → Except String (Option String)
  | [] => .ok early
  | m :: ms =>
    match m with
    | .text e =>
      if e.event_type = "error" then
        match e.errorMessage with
        | some msg => .error ("OpenAI Realtime error: " ++ msg)
        | none => oa_phase1 early ms
      else if e.event_type = "conversation.item.input_audio_transcription.completed" then
        match e.transcript with
        | some t => oa_phase1 (some t) ms
        | none => oa_phase1 early ms
      else oa_phase1 early ms
    | .close => .error "WebSocket closed during streaming"
    | .ping => oa_phase1 early ms
    | .pong => oa_phase1 early ms
    | .binary => oa_phase1 early ms
    | .wsError e => .error ("WebSocket error during streaming: " ++ e)
    | .streamEnd => .error "WebSocket closed unexpectedly during streaming"

/-- Phase 2 of the OpenAI reader: wait for the completed-transcription event;
on drain expiry or server close, gracefully degrade to the empty string. -/
def oa_phase2 (deadline : ℚ) : List (ℚ × OaMsg) → Except String String × ℚ
  | [] => (.ok "", deadline)
  | (t, m) :: ms =>
    match m with
    | .text e =>
      if e.event_type = "error" then
        match e.errorMessage with
        | some msg => (.error ("OpenAI Realtime error: " ++ msg), t)
        | none => oa_phase2 deadline ms
      else if e.event_type = "conversation.item.input_audio_transcription.completed" then
        match e.transcript with
        | some tr => (.ok tr, t)
        | none => oa_phase2 deadline ms
      else oa_phase2 deadline ms
    | .close => (.ok "", t)
    | .ping => oa_phase2 deadline ms
    | .pong => oa_phase2 deadline ms
    | .binary => oa_phase2 deadline ms
    | .wsError e => (.error ("WebSocket error: " ++ e), t)
    | .streamEnd => (.ok "", t)

/-- `collect_transcripts` in openai_realtime.rs: phase 1, then — unless an
early transcript is returned right at the phase transition — phase 2 with the
dynamic drain timeout. -/
def oa_collect_transcripts (phase1 : List OaMsg) (total_samples : Nat)
    (phase2 : List (ℚ × OaMsg)) : Except String String × ℚ :=
  match oa_phase1 none phase1 with
  | .error e => (.error e, 0)
  | .ok (some transcript) => (.ok transcript, 0)
  | .ok none => oa_phase2 ((openaiDrainSecs total_samples : ℚ)) phase2

/-- Step 11 of both `transcribe_stream_impl`s: the outer task waits at most 30
seconds for the read task; a reader finishing later is cut off with a timeout
error. -/
def awaitReader (reader : Except String String × ℚ) : Except String String :=
  if reader.2 ≤ 30 then reader.1
  else .error "Timeout waiting for transcription result"

/-- `transcribe_stream_impl` for Deepgram, restricted to a session in which the
close marker was sent (sender loop finished normally): the result the caller
sees. -/
def dg_transcribe_stream (phase1 : List DgMsg) (total_samples : Nat)
    (phase2 : List (ℚ × DgMsg)) : Except String String :=
  awaitReader (dg_collect_transcripts phase1 total_samples phase2)

/-- `transcribe_stream_impl` for OpenAI, restricted to a session in which the
commit marker was sent: the result the caller sees. -/
def oa_transcribe_stream (phase1 : List OaMsg) (total_samples : Nat)
    (phase2 : List (ℚ × OaMsg)) : Except String String :=
  awaitReader (oa_collect_transcripts phase1 total_samples phase2)

/-! ## f32 → PCM16 conversion

Embedding of the sample conversion inside both sender loops
(`deepgram_realtime.rs` and `openai_realtime.rs`):
`(s.clamp(-1.0, 1.0) * i16::MAX as f32) as i16` followed by
`pcm16.iter().flat_map(|&s| s.to_le_bytes())`.  Sample values are embedded as
exact rationals. -/

/-- Rust `f32::clamp(s, -1.0, 1.0)`. -/
def clampUnit (s : ℚ) : ℚ :=
  if s < -1 then -1 else if s > 1 then 1 else s

/-- Rust's in-range float-to-integer cast (`as i16`): truncation toward zero. -/
def truncToInt (q : ℚ) : ℤ :=
  if 0 ≤ q then ⌊q⌋ else ⌈q⌉

/-- One sender-loop sample conversion: clamp to `[-1, 1]`, scale by
`i16::MAX = 32767`, cast to `i16`. -/
def sampleToPcm16 (s : ℚ) : ℤ :=
  truncToInt (clampUnit s * 32767)

/-- The `pcm16` vector of a sender-loop iteration. -/
def pcm16OfSamples (samples : List ℚ) : List ℤ :=
  samples.map sampleToPcm16

/-- `i16::to_le_bytes`: the two's-complement little-endian byte pair. -/
def i16ToLeBytes (v : ℤ) : List Nat :=
  let u := (v % 65536).toNat
  [u % 256, u / 256]

/-- The byte payload of a sender-loop iteration:
`pcm16.iter().flat_map(|&s| s.to_le_bytes()).collect()`. -/
def pcmBytes (samples : List ℚ) : List Nat :=
  (pcm16OfSamples samples).flatMap i16ToLeBytes

/-! ## Local Parakeet engine cache and chunking

Embedding of `whis-core/src/provider/local_parakeet.rs`.  The native engine
itself is external; inference is passed in as an oracle
`engineTranscribe : List ℚ → String` standing for
`transcribe_chunk_with_engine` on the one cached engine (its result is already
trimmed there).  Filesystem checks and native model loading are oracles too. -/

/-- `CHUNK_SIZE` in transcribe_samples: 90 seconds at 16 kHz. -/
def PARAKEET_CHUNK_SIZE : Nat := 1440000

/-- `OVERLAP` in transcribe_samples: 1 second of context at chunk boundaries. -/
def PARAKEET_OVERLAP : Nat := 16000

/-- The `while start < samples.len()` chunking loop of `transcribe_samples`,
parameterised by the running `start` offset. -/
def parakeetChunksFrom (samples : List ℚ) (start : Nat) : List (List ℚ) :=
  if start < samples.length then
    ((samples.drop start).take PARAKEET_CHUNK_SIZE) ::
      parakeetChunksFrom samples (start + (PARAKEET_CHUNK_SIZE - PARAKEET_OVERLAP))
  else []
termination_by samples.length - start
decreasing_by simp only [PARAKEET_CHUNK_SIZE, PARAKEET_OVERLAP]; omega

/-- `transcribe_samples` in local_parakeet.rs, with engine lifecycle elided and
inference abstracted by `engineTranscribe`: short audio is transcribed as one
window, long audio is split by the overlap loop and the window texts are
joined with `" "`. -/
def transcribe_samples (engineTranscribe : List ℚ → String) (samples : List ℚ) : String :=
  if samples.length ≤ PARAKEET_CHUNK_SIZE then
    engineTranscribe samples
  else
    let results := (parakeetChunksFrom samples 0).map engineTranscribe
    String.intercalate " " results

/-- An observable lifecycle event of the engine cache: a native model load, or
the drop of a previously cached engine. -/
inductive CacheEvent
  | load (path : String)
  | unload (path : String)
deriving DecidableEq

/-- The engine-cache slot: `PARAKEET_ENGINE`'s `Option<CachedParakeetEngine>`,
identified by its model path. -/
structure CacheState where
  cache : Option String
deriving DecidableEq

/-- `get_or_load_engine` in local_parakeet.rs: same path cached → no event;
otherwise validate the path, load the new engine (oracles `pathOnDisk` for
`Path::exists` and `loadOk` for `load_model_with_params`), and overwrite the
slot — dropping any previously cached engine.  Returns the new state and the
lifecycle events of the call in order. -/
def get_or_load_engine (pathOnDisk : String → Bool) (loadOk : String → Bool)
    (st : CacheState) (model_path : String) :
    Except String (CacheState × List CacheEvent) :=
  match st.cache with
  | some cached =>
    if cached = model_path then .ok (st, [])
    else load_new st model_path
  | none => load_new st model_path
where
  /-- The load path of `get_or_load_engine`: validation, native load, then
  `*cache = Some(...)` which drops the old engine after the new one loaded. -/
  load_new (st : CacheState) (model_path : String) :
      Except String (CacheState × List CacheEvent) :=
    if model_path = "" then .error "Parakeet model path not configured"
    else if ¬ pathOnDisk model_path then .error "Parakeet model not found"
    else if ¬ loadOk model_path then .error "Failed to load Parakeet model"
    else
      .ok (⟨some model_path⟩,
        .load model_path :: (match st.cache with
          | some old => [.unload old]
          | none => []))

/-- Count the load events in a list of cache events. -/
def countLoads (evs : List CacheEvent) : Nat :=
  (evs.filter fun e => match e with | .load _ => true | .unload _ => false).length

/-- Count the unload events in a list of cache events. -/
def countUnloads (evs : List CacheEvent) : Nat :=
  (evs.filter fun e => match e with | .load _ => false | .unload _ => true).length

/-! ## Resampler output length

`whis-core/src/resample.rs::resample_to_16k`: multichannel input is averaged
to mono, 16 kHz input is returned unchanged, and any other rate is processed
through the external `rubato::FftFixedIn` resampler in fixed-size input chunks
with the final chunk zero-padded to the full chunk size. -/

/-- `stereo_to_mono` in resample.rs: arithmetic mean per frame of `channels`
interleaved samples. -/
def stereo_to_mono (samples : List ℚ) (channels : Nat) : List ℚ :=
  (samples.toChunks channels).map fun frame => frame.sum / (channels : ℚ)

/-- Modelled from the spec: the per-chunk output length of the external
`rubato::FftFixedIn` resampler, which is not part of this repository.  Spec
§4.1: a "polyphase FFT resampler with fixed input chunk size (1024 frames, 2
sub-chunks)" that "never silently drops samples on success" — a synchronous
resampler converting each full 1024-frame input chunk at the fixed rate ratio
`16000 / source_rate`. -/
def fftChunkOutLen (source_rate : Nat) : Nat :=
  1024 * 16000 / source_rate

/-- The number of `process` calls made by the `for chunk in
mono_samples.chunks(chunk_size)` loop: `⌈n / 1024⌉` chunks, the last one
zero-padded to 1024 frames. -/
def numResampleChunks (n : Nat) : Nat :=
  (n + 1023) / 1024

/-- Output length of `resample_to_16k` on mono input of length `n`:
the identity path at 16 kHz, otherwise the concatenation of the per-chunk
outputs of the chunked resampling loop. -/
def resampleOutLen (n source_rate : Nat) : Nat :=
  if source_rate = 16000 then n
  else numResampleChunks n * fftChunkOutLen source_rate

/-- Rounding to the nearest integer, as in the spec's
`round(|F| * 16000 / source_rate)`. -/
def roundRat (q : ℚ) : ℤ := ⌊q + 1/2⌋

/-- The spec's length invariant for the resampler:
`|out| = round(|F| * 16000 / source_rate)` within ±1 sample. -/
def specResampleLenWithin1 (n source_rate : Nat) : Prop :=
  (resampleOutLen n source_rate : ℤ) - roundRat ((n : ℚ) * 16000 / (source_rate : ℚ)) ≤ 1 ∧
  roundRat ((n : ℚ) * 16000 / (source_rate : ℚ)) - (resampleOutLen n source_rate : ℤ) ≤ 1

/-! ## Post-processor

Embedding of `whis-core/src/transcription/post_processing.rs`.  The HTTP chat
call is abstracted by an oracle from the request payload to the provider's
reply (or a transport/HTTP error). -/

/-- `PostProcessor` in post_processing.rs. -/
inductive PostProcessor
  | none
  | openai
  | mistral
  | ollama
deriving DecidableEq

/-- The chat-completions request a post-processing call sends: endpoint URL,
bearer credential (empty for Ollama), model, and the two messages. -/
structure ChatRequest where
  url : String
  bearer : String
  model : String
  systemPrompt : String
  userText : String

/-- `post_process_openai`: chat call with `model ?? "gpt-5-nano"` against the
OpenAI endpoint; the reply content is returned untouched. -/
def post_process_openai (chat : ChatRequest → Except String String)
    (text api_key system_prompt : String) (model : Option String) : Except String String :=
  chat ⟨"https://api.openai.com/v1/chat/completions", api_key,
    model.getD "gpt-5-nano", system_prompt, text⟩

/-- `post_process_mistral`: chat call with `model ?? "mistral-small-latest"`
against the Mistral endpoint. -/
def post_process_mistral (chat : ChatRequest → Except String String)
    (text api_key system_prompt : String) (model : Option String) : Except String String :=
  chat ⟨"https://api.mistral.ai/v1/chat/completions", api_key,
    model.getD "mistral-small-latest", system_prompt, text⟩

/-- Drop trailing `/` characters (`str::trim_end_matches('/')`). -/
def trimEndSlashes (s : String) : String :=
  ⟨((s.data.reverse.dropWhile fun c => c = '/')).reverse⟩

/-- `DEFAULT_OLLAMA_URL` from transcription/ollama.rs (that file is not among
the given sources; the value follows the doc example in post_processing.rs and
is immaterial to the claims). -/
def DEFAULT_OLLAMA_URL : String := "http://localhost:11434"

/-- `DEFAULT_OLLAMA_MODEL` from transcription/ollama.rs (not among the given
sources; the exact value is immaterial to the claims). -/
def DEFAULT_OLLAMA_MODEL : String := "default-ollama-model"

/-- `post_process_ollama`: chat call against `<base>/api/chat` with
`model ?? DEFAULT_OLLAMA_MODEL`; the reply content is trimmed. -/
def post_process_ollama (chat : ChatRequest → Except String String)
    (text server_url system_prompt : String) (model : Option String) : Except String String :=
  let base_url := if server_url = "" then DEFAULT_OLLAMA_URL else server_url
  let url := trimEndSlashes base_url ++ "/api/chat"
  (chat ⟨url, "", model.getD DEFAULT_OLLAMA_MODEL, system_prompt, text⟩).map strTrim

/-- `post_process` in post_processing.rs: dispatch on the processor; `None`
passes the text through unchanged. -/
def post_process (chat : ChatRequest → Except String String) (text : String)
    (post_processor : PostProcessor) (api_key_or_url : String) (prompt : String)
    (model : Option String) : Except String String :=
  match post_processor with
  | .none => .ok text
  | .openai => post_process_openai chat text api_key_or_url prompt model
  | .mistral => post_process_mistral chat text api_key_or_url prompt model
  | .ollama => post_process_ollama chat text api_key_or_url prompt model

/-! ## Spec-side merger statements

Definitions following the spec's words, for comparison with the embedded
merger. -/

/-- The claim's stated no-overlap merge result: `trim(join(" ", texts))`. -/
def specTrimJoin (texts : List Str) : Str := trimStr (joinSpace texts)

/-- One step of the no-overlap merge as the code actually behaves: append a
single space and the trimmed text, contributing nothing when the text trims
to empty. -/
def specNoOverlapStep (acc u : Str) : Str :=
  if (trimStr u).isEmpty then acc else acc ++ [' '] ++ trimStr u

/-- The amended no-overlap merge: the individually trimmed texts joined with
single spaces. -/
def specNoOverlapMerge : List Str → Str
  | [] => []
  | t :: ts => ts.foldl specNoOverlapStep (trimStr t)

/-! ## Theorems -/

/-- The head of `dropWsHead` is never whitespace. -/
theorem dropWsHead_head_not_ws :
    ∀ (l : Str) (c : Char) (cs : Str), dropWsHead l = c :: cs → c.isWhitespace = false := by
  intro l
  induction l with
  | nil => intro c cs h; cases h
  | cons a as ih =>
    intro c cs h
    rw [dropWsHead] at h
    by_cases ha : a.isWhitespace
    · rw [if_pos ha] at h
      exact ih c cs h
    · rw [if_neg ha] at h
      cases h
      exact Bool.eq_false_iff.mpr ha

/-- `dropWsHead` only removes a prefix, so a nonempty result keeps the last
element. -/
theorem dropWsHead_getLast? :
    ∀ (l : Str), dropWsHead l ≠ [] → (dropWsHead l).getLast? = l.getLast? := by
  intro l
  induction l with
  | nil => intro h; cases h rfl
  | cons a as ih =>
    intro h
    rw [dropWsHead] at h ⊢
    by_cases ha : a.isWhitespace
    · rw [if_pos ha] at h ⊢
      have has : as ≠ [] := by
        intro hnil
        rw [hnil] at h
        exact h rfl
      rw [ih h]
      cases as with
      | nil => cases has rfl
      | cons b bs => exact (List.getLast?_cons_cons).symm
    · rw [if_neg ha]

/-- A trimmed string never starts with a space. -/
theorem trimStr_not_startsWithSpace (s : Str) : startsWithSpace (trimStr s) = false := by
  unfold trimStr
  cases hd : dropWsHead ((dropWsHead s.reverse).reverse) with
  | nil => rfl
  | cons c cs =>
    have hc := dropWsHead_head_not_ws _ c cs hd
    unfold startsWithSpace
    have hcne : c ≠ ' ' := by
      intro hcsp
      rw [hcsp] at hc
      exact absurd hc (by decide)
    exact beq_eq_false_iff_ne.mpr hcne

/-- A trimmed string never ends with a space. -/
theorem trimStr_not_endsWithSpace (s : Str) : endsWithSpace (trimStr s) = false := by
  unfold trimStr endsWithSpace
  by_cases h : dropWsHead ((dropWsHead s.reverse).reverse) = []
  · rw [h]
    rfl
  · rw [dropWsHead_getLast? _ h, List.getLast?_reverse]
    cases hy : dropWsHead s.reverse with
    | nil =>
      rw [hy] at h
      cases h (by rfl)
    | cons c cs =>
      have hc := dropWsHead_head_not_ws _ c cs hy
      have hcne : c ≠ ' ' := by
        intro hcsp
        rw [hcsp] at hc
        cases hc
      simp [hcne]

/-- Appending a nonempty string keeps its last character. -/
theorem endsWithSpace_append (a b : Str) (hb : b ≠ []) :
    endsWithSpace (a ++ b) = endsWithSpace b := by
  unfold endsWithSpace
  rw [List.getLast?_append_of_ne_nil a hb]

/-- `mergeStep` on a chunk without leading overlap is exactly the spec's
trim-and-space-join step, provided the accumulator does not end in a space. -/
theorem mergeStep_no_overlap (acc : Str) (t : ChunkTranscription)
    (hov : t.has_leading_overlap = false) (hacc : endsWithSpace acc = false) :
    mergeStep acc t = specNoOverlapStep acc t.text := by
  unfold mergeStep specNoOverlapStep
  rw [hov]
  simp only [Bool.false_eq_true, if_false]
  by_cases htext : (trimStr t.text).isEmpty
  · rw [if_pos htext]
    rw [List.isEmpty_iff] at htext
    rw [htext, List.append_nil, if_neg]
    intro hcond
    exact hcond.2.1 rfl
  · rw [if_neg htext, if_pos]
    constructor
    · rw [hacc]
      exact Bool.false_ne_true
    refine ⟨?_, ?_⟩
    · rw [List.isEmpty_iff] at htext
      simpa using htext
    · rw [trimStr_not_startsWithSpace]
      exact Bool.false_ne_true

/-- The spec's no-overlap step preserves "does not end in a space". -/
theorem specNoOverlapStep_endsWithSpace (acc u : Str) (hacc : endsWithSpace acc = false) :
    endsWithSpace (specNoOverlapStep acc u) = false := by
  unfold specNoOverlapStep
  by_cases h : (trimStr u).isEmpty
  · rw [if_pos h]
    exact hacc
  · rw [if_neg h]
    have hne : trimStr u ≠ [] := by
      intro hnil
      rw [List.isEmpty_iff] at h
      exact h hnil
    rw [endsWithSpace_append _ _ hne]
    exact trimStr_not_endsWithSpace u

/-- Folding `mergeStep` over overlap-free chunks equals folding the spec's
trim-and-join step over their texts. -/
theorem merge_fold_no_overlap (rest : List ChunkTranscription) :
    ∀ acc, (∀ t ∈ rest, t.has_leading_overlap = false) → endsWithSpace acc = false →
      rest.foldl mergeStep acc = (rest.map (fun t => t.text)).foldl specNoOverlapStep acc := by
  induction rest with
  | nil => intro acc _ _; rfl
  | cons r rs ih =>
    intro acc hov hacc
    rw [List.map_cons, List.foldl_cons, List.foldl_cons,
      mergeStep_no_overlap acc r (hov r (List.mem_cons_self r rs)) hacc]
    exact ih _ (fun t ht => hov t (List.mem_cons_of_mem r ht))
      (specNoOverlapStep_endsWithSpace acc r.text hacc)

/-- C2 (amended): a single-chunk sequence merges to the provider's text
verbatim (untrimmed); a sequence of two or more chunks, none with a leading
overlap, merges to the individually trimmed texts joined by single spaces
(texts that trim to empty contribute nothing). -/
theorem merge_transcriptions_no_overlap (ts : List ChunkTranscription)
    (hov : ∀ t ∈ ts, t.has_leading_overlap = false) :
    (∀ t, ts = [t] → merge_transcriptions ts = t.text) ∧
    (2 ≤ ts.length → merge_transcriptions ts = specNoOverlapMerge (ts.map (fun t => t.text))) := by
  constructor
  · intro t h
    rw [h]
    rfl
  · intro hlen
    match ts, hov with
    | t :: r :: rs, hov =>
      show (r :: rs).foldl mergeStep (trimStr t.text) = _
      rw [List.map_cons]
      show _ = ((r :: rs).map (fun t => t.text)).foldl specNoOverlapStep (trimStr t.text)
      exact merge_fold_no_overlap (r :: rs) (trimStr t.text)
        (fun u hu => hov u (List.mem_cons_of_mem t hu))
        (trimStr_not_endsWithSpace t.text)

/-- C2 counterexample: a single chunk is returned untrimmed, and internal
boundary whitespace is normalized rather than kept, so the merge differs from
`trim(join(" ", texts))` on both a one-chunk and a two-chunk overlap-free
input. -/
theorem merge_transcriptions_not_trim_join :
    merge_transcriptions [⟨0, " hi ".data, false⟩] ≠ specTrimJoin [" hi ".data] ∧
    merge_transcriptions [⟨0, "a ".data, false⟩, ⟨1, "b".data, false⟩] ≠
      specTrimJoin ["a ".data, "b".data] := by
  constructor <;> decide

/-- Witness for C2's amended statement on two concrete chunks. -/
theorem merge_transcriptions_no_overlap_witness :
    (∀ t ∈ ([⟨0, " a ".data, false⟩, ⟨1, "b".data, false⟩] : List ChunkTranscription),
      t.has_leading_overlap = false) ∧
    (2 ≤ ([⟨0, " a ".data, false⟩, ⟨1, "b".data, false⟩] : List ChunkTranscription).length) ∧
    merge_transcriptions [⟨0, " a ".data, false⟩, ⟨1, "b".data, false⟩] =
      specNoOverlapMerge (([⟨0, " a ".data, false⟩,
        ⟨1, "b".data, false⟩] : List ChunkTranscription).map (fun t => t.text)) :=
  ⟨by decide, by decide,
   (merge_transcriptions_no_overlap _ (by decide)).2 (by decide)⟩

/-- The overlap-search bound of `remove_overlap`, as the source computes it:
`min(min(|E|w, 15), min(|S|w, 15))`. -/
def overlapSearchBound (E S : Str) : Nat :=
  min (min (splitWs E).length MAX_OVERLAP_WORDS) (min (splitWs S).length MAX_OVERLAP_WORDS)

/-- The overlap length `remove_overlap` finds for `E` and `S`. -/
def overlapBest (E S : Str) : Nat :=
  best_overlap (splitWs E) (splitWs S) (overlapSearchBound E S)

/-- Peeling the last iteration of the `best_overlap` loop. -/
theorem best_overlap_succ (ew nw : List Str) (k : Nat) :
    best_overlap ew nw (k + 1) =
      if overlapMatchesAt ew nw (k + 1) then k + 1 else best_overlap ew nw k := by
  unfold best_overlap
  rw [show List.range' 1 (k + 1) = List.range' 1 k ++ [1 + k] from by
    simpa using @List.range'_concat 1 1 k]
  rw [List.foldl_append, List.foldl_cons, List.foldl_nil, Nat.add_comm 1 k]

/-- The found overlap length never exceeds the search bound. -/
theorem best_overlap_le (ew nw : List Str) : ∀ k, best_overlap ew nw k ≤ k := by
  intro k
  induction k with
  | zero => exact Nat.le_refl 0
  | succ k ih =>
    rw [best_overlap_succ]
    split_ifs
    · exact Nat.le_refl _
    · exact Nat.le_trans ih (Nat.le_succ k)

/-- A positive found overlap length actually matches. -/
theorem best_overlap_matches (ew nw : List Str) :
    ∀ k, 1 ≤ best_overlap ew nw k →
      overlapMatchesAt ew nw (best_overlap ew nw k) = true := by
  intro k
  induction k with
  | zero =>
    intro h
    have h0 : best_overlap ew nw 0 = 0 := rfl
    omega
  | succ k ih =>
    rw [best_overlap_succ]
    split_ifs with hm
    · intro _; exact hm
    · exact ih

/-- The found overlap length is the largest matching one: the ascending loop
overwrites on every match. -/
theorem best_overlap_greatest (ew nw : List Str) :
    ∀ k l, 1 ≤ l → l ≤ k → overlapMatchesAt ew nw l = true →
      l ≤ best_overlap ew nw k := by
  intro k
  induction k with
  | zero => intro l h1 h0 _; omega
  | succ k ih =>
    intro l h1 hk hm
    rw [best_overlap_succ]
    split_ifs with hmk
    · exact hk
    · by_cases hl : l = k + 1
      · rw [hl] at hm
        exact absurd hm hmk
      · exact ih l h1 (by omega) hm

/-- C4: `remove_overlap` searches overlaps up to `K = min(15, |E|w, |S|w)`
words, the found length `L` is the largest `l ∈ [1, K]` whose last-`l`/first-`l`
words match case-insensitively; when some `l` matches, the chunk's first `L`
words are dropped (and rejoined with single spaces), when none matches the
chunk text is returned unchanged, and the merge loop skips a chunk whose text
is empty after overlap removal. -/
theorem remove_overlap_spec (E S : Str) (hE : splitWs E ≠ []) (hS : splitWs S ≠ []) :
    (overlapSearchBound E S =
      min MAX_OVERLAP_WORDS (min (splitWs E).length (splitWs S).length)) ∧
    (∀ l : Nat, 1 ≤ l → l ≤ overlapSearchBound E S →
      overlapMatchesAt (splitWs E) (splitWs S) l = true → l ≤ overlapBest E S) ∧
    (overlapBest E S = 0 →
      (∀ l : Nat, 1 ≤ l → l ≤ overlapSearchBound E S →
        overlapMatchesAt (splitWs E) (splitWs S) l = false) ∧
      remove_overlap E S = S) ∧
    (1 ≤ overlapBest E S →
      overlapBest E S ≤ overlapSearchBound E S ∧
      overlapMatchesAt (splitWs E) (splitWs S) (overlapBest E S) = true ∧
      remove_overlap E S = joinSpace ((splitWs S).drop (overlapBest E S))) ∧
    (∀ (merged : Str) (t : ChunkTranscription), t.has_leading_overlap = true →
      trimStr (remove_overlap merged (trimStr t.text)) = [] →
      mergeStep merged t = merged) := by
  have hcond : ¬ ((splitWs E).isEmpty = true ∨ (splitWs S).isEmpty = true) := by
    rw [List.isEmpty_iff, List.isEmpty_iff]
    push_neg
    exact ⟨hE, hS⟩
  refine ⟨?_, ?_, ?_, ?_, ?_⟩
  · unfold overlapSearchBound MAX_OVERLAP_WORDS
    omega
  · intro l h1 hK hm
    exact best_overlap_greatest _ _ _ l h1 hK hm
  · intro hz
    constructor
    · intro l h1 hK
      by_contra hcontra
      rw [Bool.not_eq_false] at hcontra
      have := best_overlap_greatest (splitWs E) (splitWs S) (overlapSearchBound E S) l h1 hK hcontra
      unfold overlapBest at hz
      omega
    · unfold overlapBest overlapSearchBound at hz
      simp only [remove_overlap, if_neg hcond]
      rw [hz]
      simp
  · intro h1
    refine ⟨best_overlap_le _ _ _, best_overlap_matches _ _ _ h1, ?_⟩
    unfold overlapBest overlapSearchBound at h1 ⊢
    simp only [remove_overlap, if_neg hcond]
    rw [if_pos (by omega)]
  · intro merged t hov htrim
    unfold mergeStep
    rw [hov]
    simp only [if_true]
    rw [if_pos]
    rw [htrim]
    rfl

/-- Witness for C4 on the spec's own boundary scenario: chunk 0 ends with
"the quick brown fox", chunk 1 begins "brown fox jumps over"; the two-word
overlap is found and dropped. -/
theorem remove_overlap_spec_witness :
    (splitWs "the quick brown fox".data ≠ []) ∧
    (splitWs "brown fox jumps over".data ≠ []) ∧
    overlapBest "the quick brown fox".data "brown fox jumps over".data = 2 ∧
    (1 ≤ overlapBest "the quick brown fox".data "brown fox jumps over".data) ∧
    (overlapBest "the quick brown fox".data "brown fox jumps over".data ≤
      overlapSearchBound "the quick brown fox".data "brown fox jumps over".data ∧
     overlapMatchesAt (splitWs "the quick brown fox".data)
       (splitWs "brown fox jumps over".data)
       (overlapBest "the quick brown fox".data "brown fox jumps over".data) = true ∧
     remove_overlap "the quick brown fox".data "brown fox jumps over".data =
       joinSpace ((splitWs "brown fox jumps over".data).drop
         (overlapBest "the quick brown fox".data "brown fox jumps over".data))) :=
  ⟨by decide, by decide, by decide, by decide,
   (remove_overlap_spec "the quick brown fox".data "brown fox jumps over".data
     (by decide) (by decide)).2.2.2.1 (by decide)⟩

/-- C9: post-processing with processor `None` returns the input text unchanged
(wrapped in `Ok`), for any chat backend, credential, prompt and model
arguments. -/
theorem post_process_none_identity (chat : ChatRequest → Except String String)
    (text api_key_or_url prompt : String) (model : Option String) :
    post_process chat text .none api_key_or_url prompt model = .ok text := rfl

/-- C1 (code bug): on a session whose close marker was sent, when the phase-2
drain deadline exceeds 30 seconds the reader's graceful-degradation return is
cut off by the outer task's fixed 30-second wait on the read handle, and
`transcribe_stream` returns an error instead of the collected text.  At
3,200,000 samples (200 s of audio) the drain budget is 40 s for both backends,
phase 2 expires with no terminal event, and both backends return
`Err("Timeout waiting for transcription result")`. -/
theorem stream_drain_timeout_swallowed_by_outer_wait :
    openaiDrainSecs 3200000 = 40 ∧
    deepgramDrainSecs 3200000 = 40 ∧
    oa_collect_transcripts [] 3200000 [] = (.ok "", 40) ∧
    dg_collect_transcripts [] 3200000 [] = (.ok "", 40) ∧
    oa_transcribe_stream [] 3200000 [] = .error "Timeout waiting for transcription result" ∧
    dg_transcribe_stream [] 3200000 [] = .error "Timeout waiting for transcription result" := by
  have hoa : openaiDrainSecs 3200000 = 40 := by
    unfold openaiDrainSecs rustClamp
    norm_num
    rfl
  have hdg : deepgramDrainSecs 3200000 = 40 := by
    unfold deepgramDrainSecs rustClamp
    norm_num
  have hoac : oa_collect_transcripts [] 3200000 [] = (.ok "", 40) := by
    unfold oa_collect_transcripts oa_phase1 oa_phase2
    rw [hoa]
    norm_num
  have hdgc : dg_collect_transcripts [] 3200000 [] = (.ok "", 40) := by
    unfold dg_collect_transcripts dg_phase1 dg_phase2
    rw [hdg]
    rfl
  refine ⟨hoa, hdg, hoac, hdgc, ?_, ?_⟩
  · unfold oa_transcribe_stream awaitReader
    rw [hoac]
    norm_num
  · unfold dg_transcribe_stream awaitReader
    rw [hdgc]
    norm_num

/-- Rust's `clamp` is the spec's `max lo (min x hi)` when `lo ≤ hi`. -/
theorem rustClamp_eq_max_min (x lo hi : ℚ) (h : lo ≤ hi) :
    rustClamp x lo hi = max lo (min x hi) := by
  unfold rustClamp
  split_ifs with h1 h2
  · rw [min_eq_left (by linarith), max_eq_left (by linarith)]
  · rw [min_eq_right (by linarith), max_eq_right h]
  · rw [min_eq_left (by linarith), max_eq_right (by linarith)]

/-- C3 (corrected): the Deepgram reader's drain timeout is exactly the spec's
`clamp(audio_secs / 5, 5, 60)` (fractional seconds included), and a 30 s
session gets a 6 s budget; the OpenAI reader truncates the clamped value to
whole seconds (`as u64`), so its budget is `⌊clamp(audio_secs / 5, 30, 120)⌋`
rather than the clamp itself. -/
theorem drain_timeout_formula (n : Nat) :
    deepgramDrainSecs n = specDrainFormula n 5 60 ∧
    (openaiDrainSecs n : ℤ) = ⌊specDrainFormula n 30 120⌋ ∧
    deepgramDrainSecs 480000 = 6 := by
  refine ⟨?_, ?_, by unfold deepgramDrainSecs rustClamp; norm_num⟩
  · unfold deepgramDrainSecs specDrainFormula
    rw [rustClamp_eq_max_min _ _ _ (by norm_num)]
  · unfold openaiDrainSecs specDrainFormula
    rw [rustClamp_eq_max_min _ _ _ (by norm_num)]
    rw [Int.toNat_of_nonneg]
    refine le_trans ?_ (Int.floor_le_floor (le_max_left 30 _))
    norm_num

/-- C3 counterexample: at 2,416,000 samples (151 s of audio) the OpenAI
phase-2 budget is 30 s, not the spec formula's 30.2 s. -/
theorem openai_drain_truncates :
    openaiDrainSecs 2416000 = 30 ∧
    specDrainFormula 2416000 30 120 = 151 / 5 ∧
    ((openaiDrainSecs 2416000 : ℚ)) ≠ specDrainFormula 2416000 30 120 := by
  have h30 : openaiDrainSecs 2416000 = 30 := by
    unfold openaiDrainSecs rustClamp
    norm_num
    rfl
  have hspec : specDrainFormula 2416000 30 120 = 151 / 5 := by
    unfold specDrainFormula
    norm_num
  refine ⟨h30, hspec, ?_⟩
  rw [h30, hspec]
  norm_num

/-- C6: engine-cache lifecycle.  `ensure_loaded(P)` twice performs exactly one
load and no unload; `ensure_loaded(P)` then `ensure_loaded(Q)` with `Q ≠ P`
makes the second call perform exactly one unload and one load (the old engine
is dropped when the slot is overwritten), and the cache ends holding `Q`. -/
theorem engine_cache_lifecycle (pathOnDisk loadOk : String → Bool) (P Q : String)
    (hQP : Q ≠ P) (hP : P ≠ "") (hQ : Q ≠ "")
    (hPd : pathOnDisk P = true) (hQd : pathOnDisk Q = true)
    (hPl : loadOk P = true) (hQl : loadOk Q = true) :
    (∃ st1 evs1 st2 evs2,
      get_or_load_engine pathOnDisk loadOk ⟨none⟩ P = .ok (st1, evs1) ∧
      get_or_load_engine pathOnDisk loadOk st1 P = .ok (st2, evs2) ∧
      countLoads (evs1 ++ evs2) = 1 ∧ countUnloads (evs1 ++ evs2) = 0 ∧
      st2 = ⟨some P⟩) ∧
    (∃ st1 evs1 st2 evs2,
      get_or_load_engine pathOnDisk loadOk ⟨none⟩ P = .ok (st1, evs1) ∧
      get_or_load_engine pathOnDisk loadOk st1 Q = .ok (st2, evs2) ∧
      countUnloads evs2 = 1 ∧ countLoads evs2 = 1 ∧
      st2 = ⟨some Q⟩) := by
  have h1 : get_or_load_engine pathOnDisk loadOk ⟨none⟩ P = .ok (⟨some P⟩, [.load P]) := by
    unfold get_or_load_engine get_or_load_engine.load_new
    simp [hP, hPd, hPl]
  have h2 : get_or_load_engine pathOnDisk loadOk ⟨some P⟩ P = .ok (⟨some P⟩, []) := by
    unfold get_or_load_engine
    simp
  have hPQ : ¬ (P = Q) := fun h => hQP h.symm
  have h3 : get_or_load_engine pathOnDisk loadOk ⟨some P⟩ Q =
      .ok (⟨some Q⟩, [.load Q, .unload P]) := by
    unfold get_or_load_engine get_or_load_engine.load_new
    simp [hQ, hQd, hQl, hPQ]
  exact ⟨⟨_, _, _, _, h1, h2, by rfl, by rfl, rfl⟩,
         ⟨_, _, _, _, h1, h3, by rfl, by rfl, rfl⟩⟩

/-- C5: if the OpenAI reader's phase-1 loop captured an early transcript (a
completed-transcription event arrived before the done signal), then at the
phase transition the session returns exactly that transcript, with finish time
`0` and independently of any phase-2 events — phase 2 is never entered. -/
theorem openai_early_transcript_returned (ms : List OaMsg) (tr : String)
    (h : oa_phase1 none ms = .ok (some tr)) (total_samples : Nat)
    (phase2 : List (ℚ × OaMsg)) :
    oa_collect_transcripts ms total_samples phase2 = (.ok tr, 0) ∧
    oa_transcribe_stream ms total_samples phase2 = .ok tr := by
  have hc : oa_collect_transcripts ms total_samples phase2 = (.ok tr, 0) := by
    unfold oa_collect_transcripts
    rw [h]
  refine ⟨hc, ?_⟩
  unfold oa_transcribe_stream awaitReader
  rw [hc]
  norm_num

/-- Witness for C5: a phase-1 list holding one completed-transcription event. -/
theorem openai_early_transcript_witness :
    oa_phase1 none [.text ⟨"conversation.item.input_audio_transcription.completed",
      some "hello", none⟩] = .ok (some "hello") ∧
    oa_transcribe_stream [.text ⟨"conversation.item.input_audio_transcription.completed",
      some "hello", none⟩] 16000 [] = .ok "hello" :=
  ⟨by rfl, (openai_early_transcript_returned _ "hello" (by rfl) 16000 []).2⟩

/-- The clamp of a sample lies in `[-1, 1]`. -/
theorem clampUnit_bounds (s : ℚ) : -1 ≤ clampUnit s ∧ clampUnit s ≤ 1 := by
  unfold clampUnit
  split_ifs <;> constructor <;> linarith

/-- Each converted sample lies in `[-32767, 32767]`. -/
theorem sampleToPcm16_bounds (s : ℚ) :
    -32767 ≤ sampleToPcm16 s ∧ sampleToPcm16 s ≤ 32767 := by
  obtain ⟨hlo, hhi⟩ := clampUnit_bounds s
  have hq1 : clampUnit s * 32767 ≤ 32767 := by nlinarith
  have hq2 : -32767 ≤ clampUnit s * 32767 := by nlinarith
  unfold sampleToPcm16 truncToInt
  split_ifs with h0
  · constructor
    · have : (0 : ℤ) ≤ ⌊clampUnit s * 32767⌋ := Int.le_floor.mpr (by exact_mod_cast h0)
      omega
    · have h1 : (⌊clampUnit s * 32767⌋ : ℚ) ≤ 32767 := le_trans (Int.floor_le _) hq1
      exact_mod_cast h1
  · constructor
    · have h1 : (-32767 : ℚ) ≤ (⌈clampUnit s * 32767⌉ : ℚ) := le_trans hq2 (Int.le_ceil _)
      exact_mod_cast h1
    · have : ⌈clampUnit s * 32767⌉ ≤ (0 : ℤ) := Int.ceil_le.mpr (by push_cast; linarith)
      omega

/-- C10: the sender-loop f32 → PCM16 conversion is total and wraparound-free —
every converted sample lies in `[-32767, 32767]` (inside the i16 range), the
byte payload is two bytes per sample, every byte is below 256, and each byte
pair is the little-endian encoding of its sample's two's-complement value
(low byte first, and the pair reconstructs the 16-bit value). -/
theorem pcm16_conversion_total (samples : List ℚ) :
    (∀ v ∈ pcm16OfSamples samples, -32767 ≤ v ∧ v ≤ 32767) ∧
    (pcmBytes samples).length = 2 * samples.length ∧
    (∀ b ∈ pcmBytes samples, b < 256) ∧
    (∀ v ∈ pcm16OfSamples samples,
      i16ToLeBytes v = [(v % 65536).toNat % 256, (v % 65536).toNat / 256] ∧
      (v % 65536).toNat % 256 + 256 * ((v % 65536).toNat / 256) = (v % 65536).toNat) := by
  refine ⟨?_, ?_, ?_, ?_⟩
  · intro v hv
    obtain ⟨s, _, rfl⟩ := List.mem_map.mp hv
    exact sampleToPcm16_bounds s
  · induction samples with
    | nil => rfl
    | cons a as ih =>
      simp only [pcmBytes, pcm16OfSamples, List.map_cons, List.flatMap_cons, i16ToLeBytes,
        List.length_append, List.length_cons, List.length_nil] at *
      omega
  · intro b hb
    unfold pcmBytes at hb
    obtain ⟨v, _, hbv⟩ := List.mem_flatMap.mp hb
    unfold i16ToLeBytes at hbv
    have h65536 : (v % 65536).toNat < 65536 := by
      have h1 : 0 ≤ v % 65536 := Int.emod_nonneg v (by norm_num)
      have h2 : v % 65536 < 65536 := Int.emod_lt_of_pos v (by norm_num)
      omega
    simp only [List.mem_cons, List.not_mem_nil, or_false] at hbv
    rcases hbv with rfl | rfl
    · omega
    · omega
  · intro v _
    refine ⟨rfl, ?_⟩
    omega

/-- Witness for C10 at a concrete sample list including an out-of-range
sample. -/
theorem pcm16_conversion_total_witness :
    sampleToPcm16 2 ∈ pcm16OfSamples [(2 : ℚ)] ∧
    (-32767 ≤ sampleToPcm16 2 ∧ sampleToPcm16 2 ≤ 32767) :=
  ⟨by simp [pcm16OfSamples],
   (pcm16_conversion_total [(2 : ℚ)]).1 (sampleToPcm16 2) (by simp [pcm16OfSamples])⟩

/-- Rounding a rational that is an integer gives that integer. -/
theorem roundRat_intCast (m : ℤ) : roundRat (m : ℚ) = m := by
  unfold roundRat
  rw [add_comm, Int.floor_add_int]
  norm_num

/-- C8 counterexample: one mono sample at 4000 Hz is zero-padded to a full
1024-frame chunk, so the output has a whole chunk's 4096 samples while the
spec formula rounds `1 * 16000 / 4000` to 4 — off by far more than ±1.  And
the bound fails even on chunk-aligned input when the rate does not divide
16000: three full chunks at 44,100 Hz give `3 * (1024 * 16000 / 44100) = 1113`
output samples versus the formula's round of 1115. -/
theorem resample_len_counterexample :
    (resampleOutLen 1 4000 = 4096 ∧ ¬ specResampleLenWithin1 1 4000) ∧
    (resampleOutLen (1024 * 3) 44100 = 1113 ∧
      ¬ specResampleLenWithin1 (1024 * 3) 44100) := by
  constructor
  · have hlen : resampleOutLen 1 4000 = 4096 := by
      unfold resampleOutLen numResampleChunks fftChunkOutLen
      norm_num
    refine ⟨hlen, ?_⟩
    unfold specResampleLenWithin1
    rw [hlen]
    push_cast
    rw [show ((1 : ℚ) * 16000 / 4000) = ((4 : ℤ) : ℚ) by norm_num, roundRat_intCast]
    norm_num
  · have hlen : resampleOutLen (1024 * 3) 44100 = 1113 := by
      unfold resampleOutLen numResampleChunks fftChunkOutLen
      norm_num
    refine ⟨hlen, ?_⟩
    unfold specResampleLenWithin1
    rw [hlen]
    have hround : roundRat (((1024 * 3 : ℕ) : ℚ) * 16000 / ((44100 : ℕ) : ℚ)) = 1115 := by
      unfold roundRat
      rw [Int.floor_eq_iff]
      norm_num
    rw [hround]
    norm_num

/-- C8 (amended): at 16 kHz the resampler is the identity on mono input; at
any other `source_rate` dividing 16000, an input that is a whole number of
1024-frame chunks resamples to exactly `|F| * 16000 / source_rate` samples
(so the spec's ±1 bound holds there); the general formula is chunk-count
based because the final chunk is zero-padded. -/
theorem resample_len_chunk_aligned (k rate : Nat) (h0 : 0 < rate) (hdvd : rate ∣ 16000) :
    resampleOutLen (1024 * k) rate = 1024 * k * 16000 / rate ∧
    specResampleLenWithin1 (1024 * k) rate ∧
    (∀ n, resampleOutLen n 16000 = n) := by
  obtain ⟨e, he⟩ := hdvd
  have hdiv : 1024 * k * 16000 / rate = 1024 * k * e := by
    rw [he, show 1024 * k * (rate * e) = rate * (1024 * k * e) by ring]
    exact Nat.mul_div_cancel_left _ h0
  have hout : resampleOutLen (1024 * k) rate = 1024 * k * e := by
    unfold resampleOutLen numResampleChunks fftChunkOutLen
    by_cases hr : rate = 16000
    · have he1 : e = 1 := by
        subst hr
        omega
      simp [hr, he1]
    · rw [if_neg hr, show (1024 * k + 1023) / 1024 = k by omega,
        show 1024 * 16000 = rate * (1024 * e) by rw [he]; ring,
        Nat.mul_div_cancel_left _ h0]
      ring
  have hcast : ((1024 * k : ℕ) : ℚ) * 16000 / (rate : ℚ) = ((1024 * k * e : ℕ) : ℚ) := by
    have hrne : (rate : ℚ) ≠ 0 := Nat.cast_ne_zero.mpr h0.ne'
    have he' : (16000 : ℚ) = (rate : ℚ) * (e : ℚ) := by exact_mod_cast he
    push_cast
    rw [he']
    field_simp
    ring
  have hround : roundRat (((1024 * k : ℕ) : ℚ) * 16000 / (rate : ℚ)) = ((1024 * k * e : ℕ) : ℤ) := by
    rw [hcast, show (((1024 * k * e : ℕ) : ℚ)) = (((1024 * k * e : ℕ) : ℤ) : ℚ) by push_cast; ring]
    exact roundRat_intCast _
  refine ⟨hdiv ▸ hout, ?_, fun n => by unfold resampleOutLen; simp⟩
  unfold specResampleLenWithin1
  rw [hout]
  push_cast at hround ⊢
  rw [hround]
  constructor <;> simp

/-- Witness for C8's amended statement at `k = 2`, `rate = 8000`. -/
theorem resample_len_chunk_aligned_witness :
    (0 < 8000 ∧ 8000 ∣ 16000) ∧
    (resampleOutLen (1024 * 2) 8000 = 1024 * 2 * 16000 / 8000 ∧
     specResampleLenWithin1 (1024 * 2) 8000 ∧
     (∀ n, resampleOutLen n 16000 = n)) :=
  ⟨⟨by norm_num, by norm_num⟩,
   resample_len_chunk_aligned 2 8000 (by norm_num) (by norm_num)⟩

/-- Closed form of the chunking loop: the `k`-th chunk starts at
`start + k * (CHUNK_SIZE - OVERLAP)` and takes up to `CHUNK_SIZE` samples. -/
theorem parakeetChunksFrom_getElem? (samples : List ℚ) :
    ∀ (k start : Nat), (parakeetChunksFrom samples start)[k]? =
      if start + k * (PARAKEET_CHUNK_SIZE - PARAKEET_OVERLAP) < samples.length then
        some ((samples.drop (start + k * (PARAKEET_CHUNK_SIZE - PARAKEET_OVERLAP))).take
          PARAKEET_CHUNK_SIZE)
      else none := by
  intro k
  induction k with
  | zero =>
    intro start
    rw [parakeetChunksFrom]
    by_cases h : start < samples.length
    · rw [if_pos h, if_pos (by omega), List.getElem?_cons_zero]
      simp only [Nat.zero_mul, Nat.add_zero]
    · rw [if_neg h, if_neg (by omega), List.getElem?_nil]
  | succ k ih =>
    intro start
    rw [parakeetChunksFrom]
    by_cases h : start < samples.length
    · rw [if_pos h, List.getElem?_cons_succ, ih]
      have harith : start + (PARAKEET_CHUNK_SIZE - PARAKEET_OVERLAP) +
          k * (PARAKEET_CHUNK_SIZE - PARAKEET_OVERLAP) =
          start + (k + 1) * (PARAKEET_CHUNK_SIZE - PARAKEET_OVERLAP) := by ring
      rw [harith]
    · rw [if_neg h, if_neg (by omega), List.getElem?_nil]

/-- C7: local Parakeet transcription of more than 1,440,000 samples (90 s at
16 kHz) splits the audio into windows of at most 1,440,000 samples whose start
offsets advance by 1,440,000 − 16,000 samples (1 s of overlap), transcribes
each window in order with the same engine, and joins the window texts with
single spaces; at or below 1,440,000 samples the audio is transcribed as a
single window. -/
theorem parakeet_windowing (engineTranscribe : List ℚ → String) (samples : List ℚ) :
    (samples.length ≤ 1440000 →
      transcribe_samples engineTranscribe samples = engineTranscribe samples) ∧
    (1440000 < samples.length →
      transcribe_samples engineTranscribe samples =
        String.intercalate " " ((parakeetChunksFrom samples 0).map engineTranscribe) ∧
      (∀ k : Nat, (parakeetChunksFrom samples 0)[k]? =
        if k * 1424000 < samples.length then
          some ((samples.drop (k * 1424000)).take 1440000)
        else none) ∧
      (∀ c ∈ parakeetChunksFrom samples 0, c.length ≤ 1440000)) := by
  constructor
  · intro h
    unfold transcribe_samples
    rw [if_pos (by unfold PARAKEET_CHUNK_SIZE; omega)]
  · intro h
    refine ⟨?_, ?_, ?_⟩
    · unfold transcribe_samples
      rw [if_neg (by unfold PARAKEET_CHUNK_SIZE; omega)]
    · intro k
      have hstep : PARAKEET_CHUNK_SIZE - PARAKEET_OVERLAP = 1424000 := rfl
      have hsize : PARAKEET_CHUNK_SIZE = 1440000 := rfl
      have := parakeetChunksFrom_getElem? samples k 0
      rw [hstep, hsize, Nat.zero_add] at this
      exact this
    · intro c hc
      have hk : ∃ k : Nat, (parakeetChunksFrom samples 0)[k]? = some c := by
        obtain ⟨k, hk, hg⟩ := List.getElem_of_mem hc
        exact ⟨k, by rw [List.getElem?_eq_getElem hk]; exact congrArg some hg⟩
      obtain ⟨k, hkc⟩ := hk
      rw [parakeetChunksFrom_getElem? samples k 0] at hkc
      split_ifs at hkc with hcond
      · cases hkc
        calc ((samples.drop (0 + k * (PARAKEET_CHUNK_SIZE - PARAKEET_OVERLAP))).take
            PARAKEET_CHUNK_SIZE).length ≤ PARAKEET_CHUNK_SIZE := by
              rw [List.length_take]
              omega
          _ ≤ 1440000 := by unfold PARAKEET_CHUNK_SIZE; omega

/-- Witness for C7 on concrete audio of 1,440,001 samples (just over the
90-second window). -/
theorem parakeet_windowing_witness :
    1440000 < (List.replicate 1440001 (0 : ℚ)).length ∧
    (transcribe_samples (fun _ => "w") (List.replicate 1440001 (0 : ℚ)) =
        String.intercalate " " ((parakeetChunksFrom (List.replicate 1440001 (0 : ℚ)) 0).map
          (fun _ => "w")) ∧
      (∀ k : Nat, (parakeetChunksFrom (List.replicate 1440001 (0 : ℚ)) 0)[k]? =
        if k * 1424000 < (List.replicate 1440001 (0 : ℚ)).length then
          some (((List.replicate 1440001 (0 : ℚ)).drop (k * 1424000)).take 1440000)
        else none) ∧
      (∀ c ∈ parakeetChunksFrom (List.replicate 1440001 (0 : ℚ)) 0, c.length ≤ 1440000)) :=
  ⟨by rw [List.length_replicate]; omega,
   (parakeet_windowing (fun _ => "w") (List.replicate 1440001 (0 : ℚ))).2
     (by rw [List.length_replicate]; omega)⟩

/-- Witness for C6 at concrete paths and oracles. -/
theorem engine_cache_lifecycle_witness :
    ("q" ≠ "p") ∧
    (∃ st1 evs1 st2 evs2,
      get_or_load_engine (fun _ => true) (fun _ => true) ⟨none⟩ "p" = .ok (st1, evs1) ∧
      get_or_load_engine (fun _ => true) (fun _ => true) st1 "q" = .ok (st2, evs2) ∧
      countUnloads evs2 = 1 ∧ countLoads evs2 = 1 ∧
      st2 = ⟨some "q"⟩) :=
  ⟨by decide,
   (engine_cache_lifecycle (fun _ => true) (fun _ => true) "p" "q"
     (by decide) (by decide) (by decide) rfl rfl rfl rfl).2⟩

end Whis
